import Mathlib

/-!
Verification of the single-node consensus engine (`LocalConsensus`) of the
kudu repository, as implemented in `src/kudu/consensus/local_consensus.cc`.

The development shallowly embeds the data model (quorums, op-ids, rounds,
engine state) and the operations `Start`, `Replicate`, `Commit`, `role`,
`PersistQuorum`.  External collaborators (the operation log's `Reserve` and
`AsyncAppend`, the metadata flush, the transaction factory's submission) are
fallible calls whose results are passed in as `Status` parameters.  `CHECK`
failures (fatal process aborts) are modelled by the `Outcome.fatal`
constructor, in contrast with `Outcome.done`, which carries the returned
`Status`, the final state, and an ordered trace of the observable events the
call performed (lock acquisition/release, op-id assignment, log reservation,
asynchronous append, callback extraction, quorum replacement, flush).

A separate fine-grained interleaving model (`namespace MT`) captures the
critical section of `Replicate` (op-id assignment followed by log-slot
reservation, both under the single spinlock) for an arbitrary number of
threads and an arbitrary schedule.
-/

set_option autoImplicit false

namespace LocalConsensus

/-- Peer roles, from `metadata::QuorumPeerPB::Role`. -/
inductive Role where
  | LEADER
  | FOLLOWER
  | CANDIDATE
  | LEARNER
  | NON_PARTICIPANT
deriving DecidableEq, Repr

/-- A quorum peer: its permanent uuid and its (optional proto field) role,
mirroring `metadata::QuorumPeerPB`. -/
structure QuorumPeerPB where
  permanent_uuid : String
  role : Option Role
deriving DecidableEq, Repr

/-- A quorum: peer list, monotonic sequence number, and the locality flag
(`local()` in the proto; `local` is renamed `localFlag` as it is a Lean
keyword), mirroring `metadata::QuorumPB`. -/
structure QuorumPB where
  peers : List QuorumPeerPB
  seqno : Int
  localFlag : Bool
deriving DecidableEq, Repr

/-- The consensus metadata record: wraps the committed quorum
(`cmeta_->pb().committed_quorum()`). -/
structure ConsensusMetadataPB where
  committed_quorum : QuorumPB
deriving DecidableEq, Repr

/-- An operation identifier `(term, index)`, mirroring `OpId`. -/
structure OpId where
  term : Int
  index : Int
deriving DecidableEq, Repr

/-- An opaque completion callback, identified by a tag
(`std::tr1::shared_ptr<FutureCallback>` in the source). -/
structure FutureCallback where
  cbId : Nat
deriving DecidableEq, Repr

/-- An operation (`consensus::OperationPB`): its id and whether a commit
payload is present (`has_commit()`). -/
structure OperationPB where
  id : OpId
  hasCommit : Bool
deriving DecidableEq, Repr

/-- Modelled from the spec: `ConsensusRound` is declared in `consensus.h`,
which is not under `src/`.  Per the spec's data model it owns one REPLICATE
operation, later one COMMIT operation, and one completion callback per
phase; the commit callback slot is an explicit present/transferred two-state
field (`Option`). -/
structure ConsensusRound where
  replicate_op : OperationPB
  commit_op : Option OperationPB
  replicate_callback : FutureCallback
  commit_callback : Option FutureCallback
deriving DecidableEq, Repr

/-- Bootstrap information passed to `Start` (`ConsensusBootstrapInfo`):
carries the last known op-id from recovery (`info.last_id`). -/
structure ConsensusBootstrapInfo where
  last_id : OpId
deriving DecidableEq, Repr

/-- Engine lifecycle states, mirroring the `kInitializing`, `kConfiguring`,
`kRunning` constants used by `local_consensus.cc` (UNINITIALIZED /
CONFIGURING / RUNNING in the spec). -/
inductive CState where
  | kInitializing
  | kConfiguring
  | kRunning
deriving DecidableEq, Repr

/-- Numeric value of a lifecycle state, used for the `DCHECK_GE`
comparison. -/
def CState.toNat : CState → Nat
  | .kInitializing => 0
  | .kConfiguring => 1
  | .kRunning => 2

/-- Status codes returned by the modelled operations.  `invalidQuorum` is
the recoverable validation failure; `ioError` stands for any log/storage
error injected by an external collaborator; `notSupported` is returned by
`Update`/`RequestVote`. -/
inductive Status where
  | ok
  | invalidQuorum
  | ioError
  | notSupported
deriving DecidableEq, Repr

/-- The mutable fields of a `LocalConsensus` instance that the claims
concern: the peer uuid, the consensus metadata, the next assignable op-id
index, and the lifecycle state. -/
structure EngineState where
  peer_uuid : String
  cmeta : ConsensusMetadataPB
  next_op_id_index : Int
  state : CState
deriving DecidableEq, Repr

/-- Observable events performed by a call, in program order. -/
inductive Event where
  | lockAcquire
  | lockRelease
  | verifyQuorumEv
  | setStateRunning
  | submitConfigChange (q : QuorumPB)
  | assignOpId (id : OpId)
  | logReserve
  | logAsyncAppend
  | extractCommitCallback
  | replaceQuorum (q : QuorumPB)
  | flushMeta
deriving DecidableEq, Repr

/-- The result of a call that returned (rather than aborted): the returned
status, the final state, and the ordered event trace. -/
structure FnResult (σ : Type) where
  status : Status
  state : σ
  events : List Event
deriving DecidableEq, Repr

/-- Outcome of a modelled call: either a fatal `CHECK` abort, or a normal
return with a `FnResult`. -/
inductive Outcome (σ : Type) where
  | fatal
  | done (r : FnResult σ)
deriving DecidableEq, Repr

/-- Modelled from the spec: `VerifyQuorum` lives in `quorum_util`, which is
not under `src/`.  Per the spec it validates the candidate quorum
structurally — peer count (one peer for the single-node engine), locality
flag, required fields present (each peer's role) — and fails with
`InvalidQuorum` otherwise. -/
def VerifyQuorum (q : QuorumPB) : Status :=
  if q.peers.length ≠ 1 then Status.invalidQuorum
  else if ¬ q.localFlag then Status.invalidQuorum
  else if q.peers.any (fun p => p.role.isNone) then Status.invalidQuorum
  else Status.ok

/-- `new_quorum->mutable_peers(0)->set_role(QuorumPeerPB::LEADER)`: set the
role of the first peer to LEADER. -/
def setFirstPeerLeader : List QuorumPeerPB → List QuorumPeerPB
  | [] => []
  | p :: rest => { p with role := some Role.LEADER } :: rest

/-- `LocalConsensus::Start`.  `CHECK_EQ(state_, kInitializing)` and
`CHECK(initial_quorum.local())` are fatal; `VerifyQuorum` failure returns
its status (prepended message elided); otherwise `next_op_id_index_` is set
from the bootstrap info, the promoted quorum is built, the state becomes
`kRunning`, and the configuration change is submitted to the transaction
factory, whose result (`submitResult`) is returned by `RETURN_NOT_OK`. -/
def Start (s : EngineState) (info : ConsensusBootstrapInfo)
    (submitResult : Status) : Outcome EngineState :=
  if s.state ≠ CState.kInitializing then Outcome.fatal
  else
    let iq := s.cmeta.committed_quorum
    if ¬ iq.localFlag then Outcome.fatal
    else if VerifyQuorum iq ≠ Status.ok then
      Outcome.done ⟨VerifyQuorum iq, s,
        [Event.lockAcquire, Event.verifyQuorumEv, Event.lockRelease]⟩
    else
      let s1 : EngineState := { s with next_op_id_index := info.last_id.index + 1 }
      let nq : QuorumPB :=
        { iq with peers := setFirstPeerLeader iq.peers, seqno := iq.seqno + 1 }
      let s2 : EngineState := { s1 with state := CState.kRunning }
      Outcome.done ⟨submitResult, s2,
        [Event.lockAcquire, Event.verifyQuorumEv, Event.setStateRunning,
         Event.submitConfigChange nq, Event.lockRelease]⟩

/-- `LocalConsensus::Replicate`.  `DCHECK_GE(state_, kConfiguring)` is
fatal; the term is set to 0 and the byte size precomputed outside the lock;
under the lock the index is assigned from `next_op_id_index_++` and the log
slot is reserved (`reserveResult`); outside the lock the reserved batch is
handed to `AsyncAppend` (`appendResult`). -/
def Replicate (s : EngineState) (round : ConsensusRound)
    (reserveResult appendResult : Status) :
    Outcome (EngineState × ConsensusRound) :=
  if s.state.toNat < CState.kConfiguring.toNat then Outcome.fatal
  else
    let op0 := round.replicate_op
    let op1 : OperationPB := { op0 with id := { op0.id with term := 0 } }
    let idx := s.next_op_id_index
    let op2 : OperationPB := { op1 with id := { op1.id with index := idx } }
    let s1 : EngineState := { s with next_op_id_index := idx + 1 }
    let round1 : ConsensusRound := { round with replicate_op := op2 }
    if reserveResult ≠ Status.ok then
      Outcome.done ⟨reserveResult, (s1, round1),
        [Event.lockAcquire, Event.assignOpId op2.id, Event.logReserve,
         Event.lockRelease]⟩
    else
      Outcome.done ⟨appendResult, (s1, round1),
        [Event.lockAcquire, Event.assignOpId op2.id, Event.logReserve,
         Event.lockRelease, Event.logAsyncAppend]⟩

/-- `LocalConsensus::role`: returns
`cmeta_->pb().committed_quorum().peers().begin()->role()`, i.e. the first
peer's role; dereferencing `begin()` on an empty peer list is undefined,
modelled as `none`. -/
def role (s : EngineState) : Option Role :=
  match s.cmeta.committed_quorum.peers with
  | [] => none
  | p :: _ => p.role

/-- `LocalConsensus::Update`: always `NotSupported`. -/
def Update (_s : EngineState) : Status := Status.notSupported

/-- `LocalConsensus::RequestVote`: always `NotSupported`. -/
def RequestVote (_s : EngineState) : Status := Status.notSupported

/-- Modelled from the spec: `ConsensusRound::release_commit_callback` is
declared in `consensus.h`, which is not under `src/`.  Per the spec the
extraction is a consuming transfer: it moves the commit callback out of the
round, leaving the round's callback slot empty. -/
def releaseCommitCallback (r : ConsensusRound) :
    Option FutureCallback × ConsensusRound :=
  (r.commit_callback, { r with commit_callback := none })

/-- `LocalConsensus::Commit`.  `DCHECK_NOTNULL(round->commit_op())` and
`DCHECK(commit_op->has_commit())` are fatal; the commit callback is released
from the round first; under the lock the log slot is reserved
(`reserveResult`); outside the lock the batch is handed to `AsyncAppend`
with the extracted callback (`appendResult`). -/
def Commit (s : EngineState) (round : ConsensusRound)
    (reserveResult appendResult : Status) :
    Outcome (EngineState × ConsensusRound) :=
  match round.commit_op with
  | none => Outcome.fatal
  | some cop =>
    if ¬ cop.hasCommit then Outcome.fatal
    else
      let round1 := (releaseCommitCallback round).2
      if reserveResult ≠ Status.ok then
        Outcome.done ⟨reserveResult, (s, round1),
          [Event.extractCommitCallback, Event.lockAcquire, Event.logReserve,
           Event.lockRelease]⟩
      else
        Outcome.done ⟨appendResult, (s, round1),
          [Event.extractCommitCallback, Event.lockAcquire, Event.logReserve,
           Event.lockRelease, Event.logAsyncAppend]⟩

/-- `LocalConsensus::Quorum`: a copy of the committed quorum. -/
def Quorum (s : EngineState) : QuorumPB :=
  s.cmeta.committed_quorum

/-- `LocalConsensus::PersistQuorum`.  `VerifyQuorum` runs before the lock is
taken and its failure is returned; `CHECK_LT(committed.seqno(), q.seqno())`
is fatal; otherwise the committed quorum is replaced in memory and the
metadata flushed, whose result (`flushResult`) is returned. -/
def PersistQuorum (s : EngineState) (q : QuorumPB) (flushResult : Status) :
    Outcome EngineState :=
  if VerifyQuorum q ≠ Status.ok then
    Outcome.done ⟨VerifyQuorum q, s, [Event.verifyQuorumEv]⟩
  else if ¬ (s.cmeta.committed_quorum.seqno < q.seqno) then Outcome.fatal
  else
    Outcome.done ⟨flushResult, { s with cmeta := ⟨q⟩ },
      [Event.verifyQuorumEv, Event.lockAcquire, Event.replaceQuorum q,
       Event.flushMeta, Event.lockRelease]⟩

/-- The events strictly between the first `lockAcquire` and the following
`lockRelease` of a trace: the critical section of a call. -/
def lockSection (evs : List Event) : List Event :=
  ((evs.dropWhile (fun e => e ≠ Event.lockAcquire)).drop 1).takeWhile
    (fun e => e ≠ Event.lockRelease)

/-- Event `a` occurs at a strictly earlier position than event `b` in the
trace. -/
def precedesIn (evs : List Event) (a b : Event) : Prop :=
  ∃ i j : Nat, i < j ∧ evs[i]? = some a ∧ evs[j]? = some b

/-- A sample valid single-node peer. -/
def samplePeer : QuorumPeerPB := ⟨"peer-a", some Role.FOLLOWER⟩

/-- A sample valid local quorum: one peer, seqno 5, locality flag set. -/
def sampleQuorum : QuorumPB := ⟨[samplePeer], 5, true⟩

/-- A started engine holding the sample quorum, next index 10. -/
def sampleEngine : EngineState :=
  ⟨"peer-a", ⟨sampleQuorum⟩, 10, CState.kRunning⟩

/-- A freshly constructed engine holding the sample quorum. -/
def sampleInitEngine : EngineState :=
  ⟨"peer-a", ⟨sampleQuorum⟩, -1, CState.kInitializing⟩

/-- A sample round with a populated commit operation and both callbacks. -/
def sampleRound : ConsensusRound :=
  ⟨⟨⟨7, 3⟩, false⟩, some ⟨⟨0, 10⟩, true⟩, ⟨1⟩, some ⟨2⟩⟩

/-- A structurally invalid quorum: locality flag false. -/
def badQuorumNonLocal : QuorumPB := ⟨[samplePeer], 5, false⟩

/-- A structurally invalid quorum: two peers on a single-node engine. -/
def badQuorumTwoPeers : QuorumPB :=
  ⟨[samplePeer, ⟨"peer-b", some Role.FOLLOWER⟩], 6, true⟩

/-- A structurally invalid quorum: empty peer list. -/
def emptyQuorum : QuorumPB := ⟨[], 6, true⟩

/-- A valid quorum with the next sequence number. -/
def nextQuorum : QuorumPB := ⟨[samplePeer], 6, true⟩

/-- A freshly constructed engine whose committed quorum has the locality
flag false. -/
def cexNonLocalEngine : EngineState :=
  ⟨"peer-a", ⟨badQuorumNonLocal⟩, -1, CState.kInitializing⟩

/-- A freshly constructed engine whose committed quorum has two peers (and
the locality flag set). -/
def badTwoPeerEngine : EngineState :=
  ⟨"peer-a", ⟨badQuorumTwoPeers⟩, -1, CState.kInitializing⟩

/-- Sample bootstrap info: last known op-id (0, 9). -/
def sampleInfo : ConsensusBootstrapInfo := ⟨⟨0, 9⟩⟩

/-- An engine whose committed quorum's first peer is a different node. -/
def otherFirstPeerEngine : EngineState :=
  ⟨"peer-b", ⟨⟨[⟨"peer-a", some Role.LEADER⟩, ⟨"peer-b", some Role.FOLLOWER⟩], 3, false⟩⟩,
   4, CState.kRunning⟩

namespace MT

/-- The per-thread view of one `Replicate` call's interaction with the
shared state, reduced to its program counter and the op-id index it was
assigned.  The program counter walks the shared-state-relevant skeleton of
`LocalConsensus::Replicate`: 0 = about to acquire the spinlock, 1 = holding
the lock, about to assign `next_op_id_index_++`, 2 = holding the lock,
about to call `log_->Reserve`, 3 = holding the lock, about to release it,
4 = done (the remaining `AsyncAppend` does not touch the shared
counter/lock). -/
structure ThreadSt where
  pc : Nat
  idx : Int
deriving DecidableEq, Repr

/-- The shared state seen by concurrently running `Replicate` calls: the
spinlock (`none` = free, `some t` = held by thread `t`), the
`next_op_id_index_` counter, the list of `(thread, index)` assignments in
the order they were performed, the list of log-slot reservations in the
order `log_->Reserve` was called, and the per-thread states. -/
structure MTState where
  lock : Option Nat
  counter : Int
  assigns : List (Nat × Int)
  reserves : List (Nat × Int)
  threads : List ThreadSt
deriving DecidableEq, Repr

/-- One scheduler step: thread `t` executes its next instruction if it is
enabled (the lock acquisition succeeds only when the lock is free; the
locked instructions execute only while `t` holds the lock), and otherwise
the step is a no-op. -/
def step (s : MTState) (t : Nat) : MTState :=
  match s.threads[t]? with
  | none => s
  | some th =>
    if th.pc = 0 then
      if s.lock = none then
        { s with lock := some t, threads := s.threads.set t { th with pc := 1 } }
      else s
    else if th.pc = 1 then
      if s.lock = some t then
        { s with counter := s.counter + 1,
                 assigns := s.assigns ++ [(t, s.counter)],
                 threads := s.threads.set t ⟨2, s.counter⟩ }
      else s
    else if th.pc = 2 then
      if s.lock = some t then
        { s with reserves := s.reserves ++ [(t, th.idx)],
                 threads := s.threads.set t { th with pc := 3 } }
      else s
    else if th.pc = 3 then
      if s.lock = some t then
        { s with lock := none, threads := s.threads.set t { th with pc := 4 } }
      else s
    else s

/-- Initial shared state: `n` threads each at the start of a `Replicate`
call, the lock free, and `next_op_id_index_ = n0`. -/
def init (n : Nat) (n0 : Int) : MTState :=
  ⟨none, n0, [], [], List.replicate n ⟨0, 0⟩⟩

/-- Run a schedule: an arbitrary interleaving is a list of thread ids, each
entry letting that thread execute its next enabled instruction. -/
def run (s : MTState) (sched : List Nat) : MTState :=
  sched.foldl step s

/-- The consecutive integers `n0, n0 + 1, …, n0 + k - 1`. -/
def rangeInt (n0 : Int) (k : Nat) : List Int :=
  (List.range k).map (fun (i : Nat) => n0 + (i : Int))

/-- A thread outside its critical section: not yet acquired, or done. -/
def notMid (th : ThreadSt) : Prop := th.pc = 0 ∨ th.pc = 4

/-- The mutual-exclusion part of the invariant.  When the lock is free,
reservation order equals assignment order and no thread is mid-critical
section; when thread `t` holds the lock, every other thread is outside its
critical section and the reservation list lags the assignment list by
exactly the holder's pending entry (when it has assigned but not yet
reserved) and otherwise equals it. -/
def lockInv (s : MTState) : Prop :=
  match s.lock with
  | none =>
      s.reserves = s.assigns ∧
      ∀ (u : Nat) (th : ThreadSt), s.threads[u]? = some th → notMid th
  | some t =>
      (∃ th : ThreadSt, s.threads[t]? = some th ∧
        (th.pc = 1 ∨ th.pc = 2 ∨ th.pc = 3) ∧
        (th.pc = 2 → s.assigns = s.reserves ++ [(t, th.idx)]) ∧
        (th.pc ≠ 2 → s.reserves = s.assigns)) ∧
      ∀ (u : Nat) (th' : ThreadSt), u ≠ t → s.threads[u]? = some th' → notMid th'

/-- The full invariant: the counter leads the assignment list, the assigned
indices are exactly the consecutive integers starting at `n0` in assignment
order, and the lock discipline holds. -/
def Inv (n0 : Int) (s : MTState) : Prop :=
  s.counter = n0 + s.assigns.length ∧
  s.assigns.map Prod.snd = rangeInt n0 s.assigns.length ∧
  lockInv s

end MT

/-- `VerifyQuorum` returns either `ok` or `invalidQuorum`. -/
theorem verifyQuorum_cases (q : QuorumPB) :
    VerifyQuorum q = Status.ok ∨ VerifyQuorum q = Status.invalidQuorum := by
  unfold VerifyQuorum
  split_ifs <;> simp

/-- A failing `VerifyQuorum` fails with `invalidQuorum`. -/
theorem verifyQuorum_ne_ok {q : QuorumPB} (h : VerifyQuorum q ≠ Status.ok) :
    VerifyQuorum q = Status.invalidQuorum :=
  (verifyQuorum_cases q).resolve_left h

/-- A quorum accepted by `VerifyQuorum` has exactly one peer and the
locality flag set. -/
theorem verifyQuorum_ok_facts {q : QuorumPB} (h : VerifyQuorum q = Status.ok) :
    q.peers.length = 1 ∧ q.localFlag = true := by
  unfold VerifyQuorum at h
  split_ifs at h with h1 h2 h3
  exact ⟨not_not.mp h1, h2⟩

/-- Reduction of `Start` on the path where all checks pass. -/
theorem start_run (s : EngineState) (info : ConsensusBootstrapInfo) (sub : Status)
    (h0 : s.state = CState.kInitializing)
    (hv : VerifyQuorum s.cmeta.committed_quorum = Status.ok) :
    Start s info sub =
      Outcome.done ⟨sub,
        { s with next_op_id_index := info.last_id.index + 1,
                 state := CState.kRunning },
        [Event.lockAcquire, Event.verifyQuorumEv, Event.setStateRunning,
         Event.submitConfigChange
           { s.cmeta.committed_quorum with
               peers := setFirstPeerLeader s.cmeta.committed_quorum.peers,
               seqno := s.cmeta.committed_quorum.seqno + 1 },
         Event.lockRelease]⟩ := by
  have hl := (verifyQuorum_ok_facts hv).2
  simp [Start, h0, hl, hv]

/-- Reduction of `Replicate` when the state precondition holds and the
reservation succeeds. -/
theorem replicate_run_ok (s : EngineState) (round : ConsensusRound) (ar : Status)
    (hs : CState.kConfiguring.toNat ≤ s.state.toNat) :
    Replicate s round Status.ok ar =
      Outcome.done ⟨ar,
        ({ s with next_op_id_index := s.next_op_id_index + 1 },
         { round with replicate_op :=
             { round.replicate_op with id := ⟨0, s.next_op_id_index⟩ } }),
        [Event.lockAcquire, Event.assignOpId ⟨0, s.next_op_id_index⟩,
         Event.logReserve, Event.lockRelease, Event.logAsyncAppend]⟩ := by
  simp [Replicate, Nat.not_lt.mpr hs]

/-- Reduction of `Replicate` when the state precondition holds and the
reservation fails. -/
theorem replicate_run_reserveFail (s : EngineState) (round : ConsensusRound)
    (rr ar : Status)
    (hs : CState.kConfiguring.toNat ≤ s.state.toNat)
    (hr : rr ≠ Status.ok) :
    Replicate s round rr ar =
      Outcome.done ⟨rr,
        ({ s with next_op_id_index := s.next_op_id_index + 1 },
         { round with replicate_op :=
             { round.replicate_op with id := ⟨0, s.next_op_id_index⟩ } }),
        [Event.lockAcquire, Event.assignOpId ⟨0, s.next_op_id_index⟩,
         Event.logReserve, Event.lockRelease]⟩ := by
  simp [Replicate, Nat.not_lt.mpr hs, hr]

/-- The started state passes the `DCHECK_GE(state_, kConfiguring)`
precondition. -/
theorem kRunning_ge_configuring {s : EngineState} (hs : s.state = CState.kRunning) :
    CState.kConfiguring.toNat ≤ s.state.toNat := by
  rw [hs]
  decide

/-- Reduction of `Commit` when the preconditions hold and the reservation
succeeds. -/
theorem commit_run_ok (s : EngineState) (round : ConsensusRound)
    (cop : OperationPB) (ar : Status)
    (hco : round.commit_op = some cop) (hc : cop.hasCommit = true) :
    Commit s round Status.ok ar =
      Outcome.done ⟨ar, (s, { round with commit_callback := none }),
        [Event.extractCommitCallback, Event.lockAcquire, Event.logReserve,
         Event.lockRelease, Event.logAsyncAppend]⟩ := by
  simp [Commit, hco, hc, releaseCommitCallback]

/-- Reduction of `Commit` when the preconditions hold and the reservation
fails. -/
theorem commit_run_reserveFail (s : EngineState) (round : ConsensusRound)
    (cop : OperationPB) (rr ar : Status)
    (hco : round.commit_op = some cop) (hc : cop.hasCommit = true)
    (hr : rr ≠ Status.ok) :
    Commit s round rr ar =
      Outcome.done ⟨rr, (s, { round with commit_callback := none }),
        [Event.extractCommitCallback, Event.lockAcquire, Event.logReserve,
         Event.lockRelease]⟩ := by
  simp [Commit, hco, hc, hr, releaseCommitCallback]

/-- Reduction of `PersistQuorum` on a structurally invalid quorum. -/
theorem persistQuorum_run_invalid (s : EngineState) (q : QuorumPB) (f : Status)
    (hv : VerifyQuorum q ≠ Status.ok) :
    PersistQuorum s q f =
      Outcome.done ⟨Status.invalidQuorum, s, [Event.verifyQuorumEv]⟩ := by
  simp [PersistQuorum, hv, verifyQuorum_ne_ok hv]

/-- Reduction of `PersistQuorum` on a valid quorum with a strictly greater
sequence number. -/
theorem persistQuorum_run_accept (s : EngineState) (q : QuorumPB) (f : Status)
    (hv : VerifyQuorum q = Status.ok)
    (hlt : s.cmeta.committed_quorum.seqno < q.seqno) :
    PersistQuorum s q f =
      Outcome.done ⟨f, { s with cmeta := ⟨q⟩ },
        [Event.verifyQuorumEv, Event.lockAcquire, Event.replaceQuorum q,
         Event.flushMeta, Event.lockRelease]⟩ := by
  simp [PersistQuorum, hv, hlt]

/-- Reduction of `PersistQuorum` when the monotonicity `CHECK_LT` fires. -/
theorem persistQuorum_run_fatal (s : EngineState) (q : QuorumPB) (f : Status)
    (hv : VerifyQuorum q = Status.ok)
    (hge : ¬ s.cmeta.committed_quorum.seqno < q.seqno) :
    PersistQuorum s q f = Outcome.fatal := by
  simp [PersistQuorum, hv, hge]

/-- C2: for every successful `Replicate` call on a started engine, the
round's REPLICATE operation is assigned the OpId (term 0, index equal to
the value of `next_op_id_index` before the call), `next_op_id_index` is
incremented by exactly one, and both the op-id assignment and the log-slot
reservation occur inside the critical section delimited by the single
ordering lock. -/
theorem replicate_assigns_next_index_under_lock
    (s : EngineState) (round : ConsensusRound)
    (hs : s.state = CState.kRunning) :
    ∃ r : FnResult (EngineState × ConsensusRound),
      Replicate s round Status.ok Status.ok = Outcome.done r ∧
      r.status = Status.ok ∧
      r.state.2.replicate_op.id = ⟨0, s.next_op_id_index⟩ ∧
      r.state.1.next_op_id_index = s.next_op_id_index + 1 ∧
      Event.assignOpId ⟨0, s.next_op_id_index⟩ ∈ lockSection r.events ∧
      Event.logReserve ∈ lockSection r.events := by
  refine ⟨_, replicate_run_ok s round Status.ok (kRunning_ge_configuring hs),
    rfl, rfl, rfl, ?_, ?_⟩ <;>
    simp [lockSection, List.dropWhile, List.takeWhile]

/-- C8: for every `Replicate` call in which the log reservation fails, the
error is returned to the caller, `next_op_id_index` is not rolled back (the
consumed index is skipped), the asynchronous append is never attempted, and
a subsequent successful `Replicate` is assigned the next index, leaving a
gap. -/
theorem replicate_reserve_failure_keeps_counter
    (s : EngineState) (round : ConsensusRound) (rr ar : Status)
    (hs : CState.kConfiguring.toNat ≤ s.state.toNat)
    (hr : rr ≠ Status.ok) :
    ∃ r : FnResult (EngineState × ConsensusRound),
      Replicate s round rr ar = Outcome.done r ∧
      r.status = rr ∧
      r.state.1.next_op_id_index = s.next_op_id_index + 1 ∧
      r.state.2.replicate_op.id.index = s.next_op_id_index ∧
      Event.logAsyncAppend ∉ r.events ∧
      ∀ round2 : ConsensusRound,
        ∃ r2 : FnResult (EngineState × ConsensusRound),
          Replicate r.state.1 round2 Status.ok Status.ok = Outcome.done r2 ∧
          r2.state.2.replicate_op.id.index = s.next_op_id_index + 1 := by
  refine ⟨_, replicate_run_reserveFail s round rr ar hs hr,
    rfl, rfl, rfl, by simp, ?_⟩
  intro round2
  exact ⟨_, replicate_run_ok _ round2 Status.ok hs, rfl⟩

/-- C9: `role()` returns the role of the first peer of the committed
quorum, without consulting this node's own `peer_uuid_`: when the first
peer is a different node, that other peer's role is returned, and the
returned value is invariant under changing `peer_uuid_`. -/
theorem role_reads_first_peer
    (s : EngineState) (p : QuorumPeerPB) (rest : List QuorumPeerPB)
    (hp : s.cmeta.committed_quorum.peers = p :: rest)
    (hne : p.permanent_uuid ≠ s.peer_uuid) :
    role s = p.role ∧
    ∀ u : String, role { s with peer_uuid := u } = p.role := by
  constructor
  · simp [role, hp]
  · intro u
    simp [role, hp]

/-- C3: the committed quorum's sequence number strictly increases on every
accepted replacement: a `PersistQuorum` candidate whose seqno is less than
or equal to the committed one never succeeds (either the structural
validation fails and `invalidQuorum` is returned with the state unchanged,
or the monotonicity `CHECK_LT` aborts fatally), and the committed quorum is
only ever replaced by a candidate with a strictly greater seqno. -/
theorem persistQuorum_seqno_monotonic
    (s : EngineState) (q : QuorumPB) (f : Status) :
    (q.seqno ≤ s.cmeta.committed_quorum.seqno →
      PersistQuorum s q f = Outcome.fatal ∨
      PersistQuorum s q f =
        Outcome.done ⟨Status.invalidQuorum, s, [Event.verifyQuorumEv]⟩) ∧
    (∀ r : FnResult EngineState, PersistQuorum s q f = Outcome.done r →
      r.state.cmeta.committed_quorum ≠ s.cmeta.committed_quorum →
      s.cmeta.committed_quorum.seqno < q.seqno ∧
      r.state.cmeta.committed_quorum = q) := by
  constructor
  · intro hle
    by_cases hv : VerifyQuorum q = Status.ok
    · exact Or.inl (persistQuorum_run_fatal s q f hv (not_lt.mpr hle))
    · exact Or.inr (persistQuorum_run_invalid s q f hv)
  · intro r hdone hchanged
    by_cases hv : VerifyQuorum q = Status.ok
    · by_cases hlt : s.cmeta.committed_quorum.seqno < q.seqno
      · rw [persistQuorum_run_accept s q f hv hlt] at hdone
        cases hdone
        exact ⟨hlt, rfl⟩
      · rw [persistQuorum_run_fatal s q f hv hlt] at hdone
        cases hdone
    · rw [persistQuorum_run_invalid s q f hv] at hdone
      cases hdone
      exact absurd rfl hchanged

/-- C4 counterexample: on an UNINITIALIZED engine whose committed quorum
has the locality flag false, `Start` aborts fatally at
`CHECK(initial_quorum.local())` rather than returning a recoverable
`InvalidQuorum` error. -/
theorem start_nonlocal_fatal_counterexample :
    Start cexNonLocalEngine sampleInfo Status.ok = Outcome.fatal := by
  decide

/-- C4 (amended): `Start` on an UNINITIALIZED engine returns a recoverable
`invalidQuorum` error, with the engine state unchanged, whenever the
committed quorum has the locality flag set but fails structural validation
(for example a wrong peer count or a missing role); a false locality flag
instead aborts fatally before validation. -/
theorem start_invalid_quorum_recoverable
    (s : EngineState) (info : ConsensusBootstrapInfo) (sub : Status)
    (h0 : s.state = CState.kInitializing)
    (hl : s.cmeta.committed_quorum.localFlag = true)
    (hv : VerifyQuorum s.cmeta.committed_quorum ≠ Status.ok) :
    Start s info sub =
      Outcome.done ⟨Status.invalidQuorum, s,
        [Event.lockAcquire, Event.verifyQuorumEv, Event.lockRelease]⟩ ∧
    (¬ s.cmeta.committed_quorum.localFlag →
      Start s info sub = Outcome.fatal) := by
  constructor
  · simp [Start, h0, hl, hv, verifyQuorum_ne_ok hv]
  · intro hnl
    exact absurd hl hnl

/-- C5: a successful `Start` from the UNINITIALIZED state with a valid
local committed quorum sets `next_op_id_index` to the bootstrap info's last
known index plus one, moves the engine to RUNNING, and transitions to
RUNNING strictly before submitting to the transaction factory a quorum that
is identical to the committed one except that the first (single) peer's
role is LEADER and the seqno is incremented by one. -/
theorem start_success_promotes_and_runs
    (s : EngineState) (info : ConsensusBootstrapInfo)
    (h0 : s.state = CState.kInitializing)
    (hv : VerifyQuorum s.cmeta.committed_quorum = Status.ok) :
    ∃ (r : FnResult EngineState) (nq : QuorumPB),
      Start s info Status.ok = Outcome.done r ∧
      r.status = Status.ok ∧
      r.state.next_op_id_index = info.last_id.index + 1 ∧
      r.state.state = CState.kRunning ∧
      Event.submitConfigChange nq ∈ r.events ∧
      precedesIn r.events Event.setStateRunning (Event.submitConfigChange nq) ∧
      nq.seqno = s.cmeta.committed_quorum.seqno + 1 ∧
      nq.localFlag = s.cmeta.committed_quorum.localFlag ∧
      nq.peers.map QuorumPeerPB.permanent_uuid =
        s.cmeta.committed_quorum.peers.map QuorumPeerPB.permanent_uuid ∧
      nq.peers.head?.map QuorumPeerPB.role = some (some Role.LEADER) ∧
      nq.peers.tail = s.cmeta.committed_quorum.peers.tail := by
  obtain ⟨p, hp⟩ := List.length_eq_one.mp (verifyQuorum_ok_facts hv).1
  refine ⟨_,
    { s.cmeta.committed_quorum with
        peers := setFirstPeerLeader s.cmeta.committed_quorum.peers,
        seqno := s.cmeta.committed_quorum.seqno + 1 },
    start_run s info Status.ok h0 hv, rfl, rfl, rfl, ?_, ?_, rfl, rfl,
    ?_, ?_, ?_⟩
  · simp
  · exact ⟨2, 3, by norm_num, rfl, rfl⟩
  · simp [hp, setFirstPeerLeader]
  · simp [hp, setFirstPeerLeader]
  · simp [hp, setFirstPeerLeader]

/-- C6: for every `Commit` call on a round whose commit operation is
present, on both the success and the error paths the commit completion
callback is extracted from the round before any interaction with the
operation log (the extraction is the first event, before the reservation
and before the asynchronous append), and after `Commit` returns the round
no longer holds the callback. -/
theorem commit_extracts_callback_first
    (s : EngineState) (round : ConsensusRound) (rr ar : Status)
    (r : FnResult (EngineState × ConsensusRound))
    (h : Commit s round rr ar = Outcome.done r) :
    r.state.2.commit_callback = none ∧
    r.events.head? = some Event.extractCommitCallback ∧
    precedesIn r.events Event.extractCommitCallback Event.logReserve ∧
    (Event.logAsyncAppend ∈ r.events →
      precedesIn r.events Event.extractCommitCallback Event.logAsyncAppend) := by
  rcases hco : round.commit_op with _ | cop
  · rw [Commit, hco] at h
    cases h
  · by_cases hc : cop.hasCommit = true
    · by_cases hr : rr = Status.ok
      · subst hr
        rw [commit_run_ok s round cop ar hco hc] at h
        cases h
        exact ⟨rfl, rfl, ⟨0, 2, by norm_num, rfl, rfl⟩,
          fun _ => ⟨0, 4, by norm_num, rfl, rfl⟩⟩
      · rw [commit_run_reserveFail s round cop rr ar hco hc hr] at h
        cases h
        refine ⟨rfl, rfl, ⟨0, 2, by norm_num, rfl, rfl⟩, ?_⟩
        intro hmem
        simp at hmem
    · rw [Commit, hco] at h
      simp [hc] at h

/-- C7: `PersistQuorum` with a structurally invalid quorum (for example an
empty peer list) returns `invalidQuorum` and leaves the committed quorum
unchanged, and the structural validation happens before the ordering lock
is taken (the trace starts with the validation and contains no lock
acquisition). -/
theorem persistQuorum_invalid_leaves_quorum
    (s : EngineState) (q : QuorumPB) (f : Status)
    (hv : VerifyQuorum q ≠ Status.ok) :
    ∃ r : FnResult EngineState,
      PersistQuorum s q f = Outcome.done r ∧
      r.status = Status.invalidQuorum ∧
      r.state = s ∧
      Quorum r.state = Quorum s ∧
      r.events.head? = some Event.verifyQuorumEv ∧
      Event.lockAcquire ∉ r.events := by
  refine ⟨_, persistQuorum_run_invalid s q f hv, rfl, rfl, rfl, rfl, by simp⟩

/-- C10: if the transaction factory rejects the configuration-change
submission during `Start`, the factory's error is returned but the engine's
in-memory state is not rolled back: the state remains RUNNING and
`next_op_id_index` keeps its newly set value, so `Replicate` and `Commit`
calls on the resulting state still succeed. -/
theorem start_submit_error_leaves_running
    (s : EngineState) (info : ConsensusBootstrapInfo) (e : Status)
    (h0 : s.state = CState.kInitializing)
    (hv : VerifyQuorum s.cmeta.committed_quorum = Status.ok)
    (he : e ≠ Status.ok) :
    ∃ r : FnResult EngineState,
      Start s info e = Outcome.done r ∧
      r.status = e ∧
      r.state.state = CState.kRunning ∧
      r.state.next_op_id_index = info.last_id.index + 1 ∧
      (∀ round : ConsensusRound,
        ∃ r2 : FnResult (EngineState × ConsensusRound),
          Replicate r.state round Status.ok Status.ok = Outcome.done r2 ∧
          r2.status = Status.ok) ∧
      (∀ (round : ConsensusRound) (cop : OperationPB),
        round.commit_op = some cop → cop.hasCommit = true →
        ∃ r3 : FnResult (EngineState × ConsensusRound),
          Commit r.state round Status.ok Status.ok = Outcome.done r3 ∧
          r3.status = Status.ok) := by
  refine ⟨_, start_run s info e h0 hv, rfl, rfl, rfl, ?_, ?_⟩
  · intro round
    exact ⟨_, replicate_run_ok _ round Status.ok (by simp [CState.toNat]), rfl⟩
  · intro round cop hco hc
    exact ⟨_, commit_run_ok _ round cop Status.ok hco hc, rfl⟩

namespace MT

theorem rangeInt_succ (n0 : Int) (k : Nat) :
    rangeInt n0 (k + 1) = rangeInt n0 k ++ [n0 + k] := by
  simp [rangeInt, List.range_succ]

theorem rangeInt_pairwise (n0 : Int) (k : Nat) :
    (rangeInt n0 k).Pairwise (· < ·) := by
  unfold rangeInt
  rw [List.pairwise_map]
  refine (List.pairwise_lt_range k).imp ?_
  intro a b hab
  omega

/-- The initial state satisfies the invariant. -/
theorem init_inv (n : Nat) (n0 : Int) : Inv n0 (init n n0) := by
  refine ⟨by simp [init], by simp [init, rangeInt], ?_⟩
  simp only [init, lockInv]
  constructor
  · simp
  · intro u th h
    left
    have hm := List.getElem?_mem h
    rw [List.eq_of_mem_replicate hm]

/-- One scheduler step preserves the invariant. -/
theorem step_preserves_inv {n0 : Int} (s : MTState) (t : Nat) (h : Inv n0 s) :
    Inv n0 (step s t) := by
  obtain ⟨hc, hmap, hlock⟩ := h
  unfold step
  split
  · exact ⟨hc, hmap, hlock⟩
  · rename_i th hth
    have ht : t < s.threads.length := by
      rw [List.getElem?_eq_some] at hth
      exact hth.1
    split_ifs with h0 hl h1 hl1 h2 hl2 h3 hl3
    -- acquire succeeds
    · simp only [lockInv, hl] at hlock
      obtain ⟨hre, hmid⟩ := hlock
      refine ⟨hc, hmap, ?_⟩
      simp only [lockInv]
      refine ⟨⟨{ th with pc := 1 }, ?_, Or.inl rfl, by simp, fun _ => hre⟩, ?_⟩
      · exact List.getElem?_set_eq_of_lt _ ht
      · intro u th' hu hget
        rw [List.getElem?_set_ne (Ne.symm hu)] at hget
        exact hmid u th' hget
    -- acquire blocked
    · exact ⟨hc, hmap, hlock⟩
    -- assign under the lock
    · simp only [lockInv, hl1] at hlock
      obtain ⟨⟨th0, hth0, _, _, hpcne⟩, hothers⟩ := hlock
      have hth0' : th0 = th := by
        rw [hth0] at hth
        exact Option.some_inj.mp hth
      have hre : s.reserves = s.assigns := hpcne (by rw [hth0', h1]; decide)
      refine ⟨?_, ?_, ?_⟩
      · simp only [List.length_append, List.length_singleton, hc]
        omega
      · simp only [List.map_append, List.length_append, List.length_singleton,
          hmap, rangeInt_succ, List.map_cons, List.map_nil, hc]
      · simp only [lockInv, hl1]
        refine ⟨⟨⟨2, s.counter⟩, ?_, Or.inr (Or.inl rfl), ?_, by simp⟩, ?_⟩
        · exact List.getElem?_set_eq_of_lt _ ht
        · intro _
          rw [hre]
        · intro u th' hu hget
          rw [List.getElem?_set_ne (Ne.symm hu)] at hget
          exact hothers u th' hu hget
    -- assign not enabled (lock not held): unreachable no-op
    · exact ⟨hc, hmap, hlock⟩
    -- reserve under the lock
    · simp only [lockInv, hl2] at hlock
      obtain ⟨⟨th0, hth0, _, hpc2, _⟩, hothers⟩ := hlock
      have hth0' : th0 = th := by
        rw [hth0] at hth
        exact Option.some_inj.mp hth
      have hassign : s.assigns = s.reserves ++ [(t, th.idx)] := by
        have := hpc2 (by rw [hth0']; exact h2)
        rwa [hth0'] at this
      refine ⟨hc, hmap, ?_⟩
      simp only [lockInv, hl2]
      refine ⟨⟨{ th with pc := 3 }, ?_, Or.inr (Or.inr rfl), by simp, ?_⟩, ?_⟩
      · exact List.getElem?_set_eq_of_lt _ ht
      · intro _
        exact hassign.symm
      · intro u th' hu hget
        rw [List.getElem?_set_ne (Ne.symm hu)] at hget
        exact hothers u th' hu hget
    -- reserve not enabled: unreachable no-op
    · exact ⟨hc, hmap, hlock⟩
    -- release
    · simp only [lockInv, hl3] at hlock
      obtain ⟨⟨th0, hth0, _, _, hpcne⟩, hothers⟩ := hlock
      have hth0' : th0 = th := by
        rw [hth0] at hth
        exact Option.some_inj.mp hth
      have hre : s.reserves = s.assigns := hpcne (by rw [hth0', h3]; decide)
      refine ⟨hc, hmap, ?_⟩
      simp only [lockInv]
      refine ⟨hre, ?_⟩
      intro u th' hget
      by_cases hu : u = t
      · subst hu
        rw [List.getElem?_set_eq_of_lt _ ht] at hget
        rw [← Option.some_inj.mp hget]
        right
        rfl
      · rw [List.getElem?_set_ne (Ne.symm hu)] at hget
        exact hothers u th' hu hget
    -- release not enabled: unreachable no-op
    · exact ⟨hc, hmap, hlock⟩
    -- thread already done
    · exact ⟨hc, hmap, hlock⟩

/-- Running any schedule preserves the invariant. -/
theorem run_preserves_inv {n0 : Int} (sched : List Nat) (s : MTState)
    (h : Inv n0 s) : Inv n0 (run s sched) := by
  induction sched generalizing s with
  | nil => exact h
  | cons t rest ih => exact ih _ (step_preserves_inv s t h)

end MT

/-- C1: for every number of concurrently issued `Replicate` calls on a
started engine and every thread interleaving under which all calls
complete, the op-id indices are assigned as a strictly increasing sequence
with no duplicates, and the order in which log slots are reserved equals
the order in which the op-ids were assigned. -/
theorem replicate_interleaving_ordered (n : Nat) (n0 : Int) (sched : List Nat)
    (hdone : ∀ th ∈ (MT.run (MT.init n n0) sched).threads, th.pc = 4) :
    ((MT.run (MT.init n n0) sched).assigns.map Prod.snd).Pairwise (· < ·) ∧
    ((MT.run (MT.init n n0) sched).assigns.map Prod.snd).Nodup ∧
    (MT.run (MT.init n n0) sched).reserves =
      (MT.run (MT.init n n0) sched).assigns := by
  obtain ⟨hc, hmap, hlock⟩ := MT.run_preserves_inv sched _ (MT.init_inv n n0)
  have hpw : ((MT.run (MT.init n n0) sched).assigns.map Prod.snd).Pairwise (· < ·) := by
    rw [hmap]
    exact MT.rangeInt_pairwise _ _
  refine ⟨hpw, hpw.imp (fun hab => ne_of_lt hab), ?_⟩
  rcases hl : (MT.run (MT.init n n0) sched).lock with _ | t
  · simp only [MT.lockInv, hl] at hlock
    exact hlock.1
  · exfalso
    simp only [MT.lockInv, hl] at hlock
    obtain ⟨⟨th, hth, hpc, _, _⟩, _⟩ := hlock
    have h4 := hdone th (List.getElem?_mem hth)
    rcases hpc with hpc | hpc | hpc <;> rw [h4] at hpc <;> exact absurd hpc (by decide)

/-- Witness for C1: two threads, initial index 10, a genuinely interleaved
schedule (thread 1 repeatedly attempts the lock while thread 0 is in its
critical section). -/
theorem replicate_interleaving_ordered_witness :
    (∀ th ∈ (MT.run (MT.init 2 10) [0, 1, 0, 1, 0, 1, 0, 1, 1, 1, 1]).threads,
      th.pc = 4) ∧
    (((MT.run (MT.init 2 10) [0, 1, 0, 1, 0, 1, 0, 1, 1, 1, 1]).assigns.map
        Prod.snd).Pairwise (· < ·) ∧
     ((MT.run (MT.init 2 10) [0, 1, 0, 1, 0, 1, 0, 1, 1, 1, 1]).assigns.map
        Prod.snd).Nodup ∧
     (MT.run (MT.init 2 10) [0, 1, 0, 1, 0, 1, 0, 1, 1, 1, 1]).reserves =
       (MT.run (MT.init 2 10) [0, 1, 0, 1, 0, 1, 0, 1, 1, 1, 1]).assigns) :=
  ⟨by decide, replicate_interleaving_ordered 2 10 _ (by decide)⟩

/-- Witness for C2 at a concrete started engine. -/
theorem replicate_assigns_next_index_under_lock_witness :
    sampleEngine.state = CState.kRunning ∧
    (∃ r : FnResult (EngineState × ConsensusRound),
      Replicate sampleEngine sampleRound Status.ok Status.ok = Outcome.done r ∧
      r.status = Status.ok ∧
      r.state.2.replicate_op.id = ⟨0, sampleEngine.next_op_id_index⟩ ∧
      r.state.1.next_op_id_index = sampleEngine.next_op_id_index + 1 ∧
      Event.assignOpId ⟨0, sampleEngine.next_op_id_index⟩ ∈ lockSection r.events ∧
      Event.logReserve ∈ lockSection r.events) :=
  ⟨rfl, replicate_assigns_next_index_under_lock sampleEngine sampleRound rfl⟩

/-- Witness for C3: a candidate with the same seqno (5) as the committed
quorum is not accepted, and a candidate with seqno 6 replaces it. -/
theorem persistQuorum_seqno_monotonic_witness :
    (sampleQuorum.seqno ≤ sampleEngine.cmeta.committed_quorum.seqno ∧
     (PersistQuorum sampleEngine sampleQuorum Status.ok = Outcome.fatal ∨
      PersistQuorum sampleEngine sampleQuorum Status.ok =
        Outcome.done ⟨Status.invalidQuorum, sampleEngine, [Event.verifyQuorumEv]⟩)) ∧
    (sampleEngine.cmeta.committed_quorum.seqno < nextQuorum.seqno ∧
     (⟨"peer-a", ⟨nextQuorum⟩, 10, CState.kRunning⟩ : EngineState).cmeta.committed_quorum
       = nextQuorum) :=
  ⟨⟨by decide,
    (persistQuorum_seqno_monotonic sampleEngine sampleQuorum Status.ok).1 (by decide)⟩,
   (persistQuorum_seqno_monotonic sampleEngine nextQuorum Status.ok).2
     ⟨Status.ok, ⟨"peer-a", ⟨nextQuorum⟩, 10, CState.kRunning⟩,
      [Event.verifyQuorumEv, Event.lockAcquire, Event.replaceQuorum nextQuorum,
       Event.flushMeta, Event.lockRelease]⟩
     (by decide) (by decide)⟩

/-- Witness for the amended C4 at a concrete engine whose quorum has the
locality flag set but two peers. -/
theorem start_invalid_quorum_recoverable_witness :
    badTwoPeerEngine.state = CState.kInitializing ∧
    badTwoPeerEngine.cmeta.committed_quorum.localFlag = true ∧
    VerifyQuorum badTwoPeerEngine.cmeta.committed_quorum ≠ Status.ok ∧
    (Start badTwoPeerEngine sampleInfo Status.ok =
      Outcome.done ⟨Status.invalidQuorum, badTwoPeerEngine,
        [Event.lockAcquire, Event.verifyQuorumEv, Event.lockRelease]⟩ ∧
     (¬ badTwoPeerEngine.cmeta.committed_quorum.localFlag →
       Start badTwoPeerEngine sampleInfo Status.ok = Outcome.fatal)) :=
  ⟨rfl, rfl, by decide,
   start_invalid_quorum_recoverable badTwoPeerEngine sampleInfo Status.ok rfl rfl
     (by decide)⟩

/-- Witness for C5 at a concrete freshly constructed engine, bootstrapped
with last known index 9. -/
theorem start_success_promotes_and_runs_witness :
    sampleInitEngine.state = CState.kInitializing ∧
    VerifyQuorum sampleInitEngine.cmeta.committed_quorum = Status.ok ∧
    (∃ (r : FnResult EngineState) (nq : QuorumPB),
      Start sampleInitEngine sampleInfo Status.ok = Outcome.done r ∧
      r.status = Status.ok ∧
      r.state.next_op_id_index = sampleInfo.last_id.index + 1 ∧
      r.state.state = CState.kRunning ∧
      Event.submitConfigChange nq ∈ r.events ∧
      precedesIn r.events Event.setStateRunning (Event.submitConfigChange nq) ∧
      nq.seqno = sampleInitEngine.cmeta.committed_quorum.seqno + 1 ∧
      nq.localFlag = sampleInitEngine.cmeta.committed_quorum.localFlag ∧
      nq.peers.map QuorumPeerPB.permanent_uuid =
        sampleInitEngine.cmeta.committed_quorum.peers.map QuorumPeerPB.permanent_uuid ∧
      nq.peers.head?.map QuorumPeerPB.role = some (some Role.LEADER) ∧
      nq.peers.tail = sampleInitEngine.cmeta.committed_quorum.peers.tail) :=
  ⟨rfl, by decide,
   start_success_promotes_and_runs sampleInitEngine sampleInfo rfl (by decide)⟩

/-- Witness for C6 at a concrete round with a populated commit operation,
on the success path. -/
theorem commit_extracts_callback_first_witness :
    Commit sampleEngine sampleRound Status.ok Status.ok =
      Outcome.done ⟨Status.ok,
        (sampleEngine, ⟨⟨⟨7, 3⟩, false⟩, some ⟨⟨0, 10⟩, true⟩, ⟨1⟩, none⟩),
        [Event.extractCommitCallback, Event.lockAcquire, Event.logReserve,
         Event.lockRelease, Event.logAsyncAppend]⟩ ∧
    ((⟨⟨⟨7, 3⟩, false⟩, some ⟨⟨0, 10⟩, true⟩, ⟨1⟩, none⟩ : ConsensusRound).commit_callback
        = none ∧
     ([Event.extractCommitCallback, Event.lockAcquire, Event.logReserve,
       Event.lockRelease, Event.logAsyncAppend].head? =
        some Event.extractCommitCallback) ∧
     precedesIn [Event.extractCommitCallback, Event.lockAcquire, Event.logReserve,
       Event.lockRelease, Event.logAsyncAppend]
       Event.extractCommitCallback Event.logReserve ∧
     (Event.logAsyncAppend ∈ [Event.extractCommitCallback, Event.lockAcquire,
        Event.logReserve, Event.lockRelease, Event.logAsyncAppend] →
      precedesIn [Event.extractCommitCallback, Event.lockAcquire, Event.logReserve,
        Event.lockRelease, Event.logAsyncAppend]
        Event.extractCommitCallback Event.logAsyncAppend)) :=
  ⟨by decide,
   commit_extracts_callback_first sampleEngine sampleRound Status.ok Status.ok
     ⟨Status.ok, (sampleEngine, ⟨⟨⟨7, 3⟩, false⟩, some ⟨⟨0, 10⟩, true⟩, ⟨1⟩, none⟩),
      [Event.extractCommitCallback, Event.lockAcquire, Event.logReserve,
       Event.lockRelease, Event.logAsyncAppend]⟩ (by decide)⟩

/-- Witness for C7: `PersistQuorum` with the empty-peer-list quorum. -/
theorem persistQuorum_invalid_leaves_quorum_witness :
    VerifyQuorum emptyQuorum ≠ Status.ok ∧
    (∃ r : FnResult EngineState,
      PersistQuorum sampleEngine emptyQuorum Status.ok = Outcome.done r ∧
      r.status = Status.invalidQuorum ∧
      r.state = sampleEngine ∧
      Quorum r.state = Quorum sampleEngine ∧
      r.events.head? = some Event.verifyQuorumEv ∧
      Event.lockAcquire ∉ r.events) :=
  ⟨by decide,
   persistQuorum_invalid_leaves_quorum sampleEngine emptyQuorum Status.ok (by decide)⟩

/-- Witness for C8: a failing reservation (`ioError`) on the started sample
engine. -/
theorem replicate_reserve_failure_keeps_counter_witness :
    CState.kConfiguring.toNat ≤ sampleEngine.state.toNat ∧
    Status.ioError ≠ Status.ok ∧
    (∃ r : FnResult (EngineState × ConsensusRound),
      Replicate sampleEngine sampleRound Status.ioError Status.ok = Outcome.done r ∧
      r.status = Status.ioError ∧
      r.state.1.next_op_id_index = sampleEngine.next_op_id_index + 1 ∧
      r.state.2.replicate_op.id.index = sampleEngine.next_op_id_index ∧
      Event.logAsyncAppend ∉ r.events ∧
      ∀ round2 : ConsensusRound,
        ∃ r2 : FnResult (EngineState × ConsensusRound),
          Replicate r.state.1 round2 Status.ok Status.ok = Outcome.done r2 ∧
          r2.state.2.replicate_op.id.index = sampleEngine.next_op_id_index + 1) :=
  ⟨by decide, by decide,
   replicate_reserve_failure_keeps_counter sampleEngine sampleRound Status.ioError
     Status.ok (by decide) (by decide)⟩

/-- Witness for C9: an engine whose own uuid is "peer-b" but whose
committed quorum lists "peer-a" (a LEADER) first. -/
theorem role_reads_first_peer_witness :
    otherFirstPeerEngine.cmeta.committed_quorum.peers =
      ⟨"peer-a", some Role.LEADER⟩ :: [⟨"peer-b", some Role.FOLLOWER⟩] ∧
    (⟨"peer-a", some Role.LEADER⟩ : QuorumPeerPB).permanent_uuid ≠
      otherFirstPeerEngine.peer_uuid ∧
    (role otherFirstPeerEngine = (⟨"peer-a", some Role.LEADER⟩ : QuorumPeerPB).role ∧
     ∀ u : String,
       role { otherFirstPeerEngine with peer_uuid := u } =
         (⟨"peer-a", some Role.LEADER⟩ : QuorumPeerPB).role) :=
  ⟨rfl, by decide,
   role_reads_first_peer otherFirstPeerEngine ⟨"peer-a", some Role.LEADER⟩
     [⟨"peer-b", some Role.FOLLOWER⟩] rfl (by decide)⟩

/-- Witness for C10: the factory rejects the submission with `ioError` on
the concrete freshly constructed engine. -/
theorem start_submit_error_leaves_running_witness :
    sampleInitEngine.state = CState.kInitializing ∧
    VerifyQuorum sampleInitEngine.cmeta.committed_quorum = Status.ok ∧
    Status.ioError ≠ Status.ok ∧
    (∃ r : FnResult EngineState,
      Start sampleInitEngine sampleInfo Status.ioError = Outcome.done r ∧
      r.status = Status.ioError ∧
      r.state.state = CState.kRunning ∧
      r.state.next_op_id_index = sampleInfo.last_id.index + 1 ∧
      (∀ round : ConsensusRound,
        ∃ r2 : FnResult (EngineState × ConsensusRound),
          Replicate r.state round Status.ok Status.ok = Outcome.done r2 ∧
          r2.status = Status.ok) ∧
      (∀ (round : ConsensusRound) (cop : OperationPB),
        round.commit_op = some cop → cop.hasCommit = true →
        ∃ r3 : FnResult (EngineState × ConsensusRound),
          Commit r.state round Status.ok Status.ok = Outcome.done r3 ∧
          r3.status = Status.ok)) :=
  ⟨rfl, by decide, by decide,
   start_submit_error_leaves_running sampleInitEngine sampleInfo Status.ioError rfl
     (by decide) (by decide)⟩

end LocalConsensus
